import Mathlib

/-!
Verification of the cephadm orchestrator module
(`src/pybind/mgr/cephadm/module.py`) against its specification.

Python dictionaries are embedded as association lists over `String` keys,
preserving insertion order (updates replace in place, fresh keys append at
the end, deletion removes the key's entry), which matches CPython dict
semantics for the unique-key dictionaries used by the module.
-/

namespace Cephadm

/-! ### Dictionary operations -/

/-- Membership test for a key of a Python dict (`k in d`). -/
def dmem {α : Type} (k : String) (l : List (String × α)) : Bool :=
  l.any (fun p => p.1 == k)

/-- Lookup (`d[k]` / `d.get(k)`), returning the value at the unique key. -/
def dget {α : Type} (l : List (String × α)) (k : String) : Option α :=
  (l.find? (fun p => p.1 == k)).map Prod.snd

/-- Assignment `d[k] = v`: replace in place if present, else append. -/
def dinsert {α : Type} (k : String) (v : α) : List (String × α) → List (String × α)
  | [] => [(k, v)]
  | p :: ps => if p.1 == k then (k, v) :: ps else p :: dinsert k v ps

/-- Deletion `del d[k]` (the caller checks presence; on an absent key the
Python statement raises `KeyError`, which the operations below model
explicitly before calling `derase`). -/
def derase {α : Type} (k : String) (l : List (String × α)) : List (String × α) :=
  l.filter (fun p => p.1 != k)

/-! ### Data model -/

/-- One daemon entry as stored in the per-host daemon cache (the JSON
objects returned by the remote `ls` command, plus the synthetic `*.*`
entry). -/
structure DaemonJson where
  name : String
  style : String
  fsid : String
  container_id : Option String := none
  container_image_name : Option String := none
  container_image_id : Option String := none
  version : Option String := none
  state : Option String := none
  last_refresh : Option String := none
deriving Repr, DecidableEq

/-- Modelled from the spec: `OutdatableData` of the orchestrator interface
module (not under src/): a cache entry `(data, last_refresh)`; a fresh
entry (`OutdatableData()`) has empty data and no `last_refresh`. -/
structure OutdatableData where
  data : List DaemonJson := []
  last_refresh : Option Nat := none
deriving Repr, DecidableEq

/-- A fresh cache entry, `OutdatableData()`. -/
def OutdatableData.fresh : OutdatableData := ⟨[], none⟩

/-- Modelled from the spec: staleness predicate of an outdatable cache
entry: stale when `now - last_refresh > timeout` or `last_refresh` unset. -/
def OutdatableData.outdated (e : OutdatableData) (timeout now : Nat) : Bool :=
  match e.last_refresh with
  | none => true
  | some t => decide (timeout < now - t)

/-- One inventory value: address plus optional label list (`labels` may be
missing from the JSON-loaded dict, hence the `Option`). -/
structure HostInfo where
  addr : String
  labels : Option (List String) := none
deriving Repr, DecidableEq

/-- Modelled from the spec: `HostSpec` of the orchestrator interface module
(not under src/): hostname, network address defaulting to the hostname,
and a set of free-form labels defaulting to empty. -/
structure HostSpec where
  hostname : String
  addr : String
  labels : List String := []
deriving Repr, DecidableEq

/-- `HostSpec(hostname)` with the defaults applied. -/
def HostSpec.ofName (hostname : String) : HostSpec :=
  { hostname := hostname, addr := hostname }

/-- The mutable state of `CephadmOrchestrator` relevant to inventory
operations: the inventory, the two outdatable caches, and the per-host
connection table `_cons` (connections are identified by the order in which
they were opened; `nextCon` supplies fresh identifiers). -/
structure ModState where
  fsid : String
  inventory : List (String × HostInfo)
  inventory_cache : List (String × OutdatableData)
  daemon_cache : List (String × OutdatableData)
  cons : List (String × Nat)
  nextCon : Nat
  eventSet : Bool
deriving Repr, DecidableEq

/-- Error kinds raised by the inventory operations. `validation` comes from
`assert_valid_host`, `checkFailed` from a non-zero remote `check-host`,
`keyError` from `del` on an absent dict key, `notFound` from the explicit
host-registration checks. -/
inductive HostErr
  | validation (msg : String)
  | checkFailed (host : String)
  | keyError (key : String)
  | notFound (host : String)
deriving Repr, DecidableEq

/-- The remote world as seen by `add_host`: the exit code of
`cephadm check-host` per contacted address. -/
structure CheckEnv where
  checkCode : String → Nat

/-! ### Host-name validation (`assert_valid_host`) -/

/-- A character allowed by the regex `^[a-zA-Z0-9-]+$`. -/
def host_char_ok (c : Char) : Bool :=
  ('a' ≤ c && c ≤ 'z') || ('A' ≤ c && c ≤ 'Z') || ('0' ≤ c && c ≤ '9') || c == '-'

/-- Python `name.split('.')` on the character list: splits at every dot,
keeping empty components (so `"" ↦ [""]`, `"." ↦ ["", ""]`). -/
def splitOnDot : List Char → List (List Char)
  | [] => [[]]
  | c :: cs =>
      if c = '.' then [] :: splitOnDot cs
      else
        match splitOnDot cs with
        | [] => [[c]]
        | p :: ps => (c :: p) :: ps

/-- The characters the regex consumes when it matches: Python's `$` (no
MULTILINE) matches at the end of the string or just before one final
newline, and `\n` is outside the character class, so a single trailing
newline is discounted. -/
def regex_body (cs : List Char) : List Char :=
  if cs.getLast? = some '\n' then cs.dropLast else cs

/-- `re.match` of `^[a-zA-Z0-9-]+$` against the part: one or more
characters of the class, followed by the end or by one final newline
(so `a\n` is accepted, as the Python matcher does). -/
def regex_part_match (cs : List Char) : Bool :=
  decide (0 < (regex_body cs).length) && (regex_body cs).all host_char_ok

/-- One `.`-delimited component: non-empty, at most 63 chars (both on the
raw part), and matched by the regex. -/
def valid_host_part (part : List Char) : Bool :=
  decide (0 < part.length) && decide (part.length ≤ 63) && regex_part_match part

/-- `assert_valid_host` as a predicate: `true` iff the assertions pass. -/
def assert_valid_host (name : String) : Bool :=
  decide (name.data.length ≤ 250) && (splitOnDot name.data).all valid_host_part

/-- The host-name grammar violation in the words of the claim: longer than
250 characters, or some dot-separated part is empty, longer than 63
characters, or contains a character outside `[a-zA-Z0-9-]`. -/
def hostname_grammar_violation (name : String) : Bool :=
  decide (250 < name.data.length) ||
  (splitOnDot name.data).any (fun part =>
    decide (part.length = 0) || decide (63 < part.length)
      || part.any (fun c => ! host_char_ok c))

/-- The amended host-name grammar violation: as above, except that a part
is judged after discounting one trailing newline — the regex's `$` anchor
accepts it — so a part violates iff it is empty, longer than 63 raw
characters, or its matched body is empty or holds a character outside
`[a-zA-Z0-9-]`. -/
def hostname_grammar_violation_nl (name : String) : Bool :=
  decide (250 < name.data.length) ||
  (splitOnDot name.data).any (fun part =>
    decide (part.length = 0) || decide (63 < part.length)
      || (decide ((regex_body part).length = 0)
          || (regex_body part).any (fun c => ! host_char_ok c)))

/-! ### Connection table -/

/-- `_get_connection`: reuse a cached connection for the address, else open
a new one and cache it. -/
def get_connection (s : ModState) (addr : String) : ModState :=
  if dmem addr s.cons then s
  else { s with cons := s.cons ++ [(addr, s.nextCon)], nextCon := s.nextCon + 1 }

/-- `_reset_con`: close and drop the cached connection for the host, if any. -/
def reset_con (s : ModState) (host : String) : ModState :=
  if dmem host s.cons then { s with cons := derase host s.cons } else s

/-! ### Inventory mutators -/

/-- `add_host`: validate the name, run a synchronous remote `check-host`
against the candidate address (which opens/caches a connection), and only
on success register the host in the inventory and prime both caches. -/
def add_host (env : CheckEnv) (s : ModState) (spec : HostSpec) :
    ModState × Except HostErr String :=
  if ! assert_valid_host spec.hostname then
    (s, .error (.validation spec.hostname))
  else
    let s1 := get_connection s spec.addr
    if env.checkCode spec.addr ≠ 0 then
      (s1, .error (.checkFailed spec.hostname))
    else
      let s2 := { s1 with
        inventory := dinsert spec.hostname
          { addr := spec.addr, labels := some spec.labels } s1.inventory,
        inventory_cache := dinsert spec.hostname OutdatableData.fresh s1.inventory_cache,
        daemon_cache := dinsert spec.hostname OutdatableData.fresh s1.daemon_cache,
        eventSet := true }
      (s2, .ok ("Added host " ++ spec.hostname))

/-- `remove_host`: `del` the host from the inventory and both caches (each
`del` raises `KeyError` when the key is absent), then reset its
connection. -/
def remove_host (s : ModState) (host : String) : ModState × Except HostErr String :=
  if ! dmem host s.inventory then (s, .error (.keyError host))
  else
    let s1 := { s with inventory := derase host s.inventory }
    if ! dmem host s1.inventory_cache then (s1, .error (.keyError host))
    else
      let s2 := { s1 with inventory_cache := derase host s1.inventory_cache }
      if ! dmem host s2.daemon_cache then (s2, .error (.keyError host))
      else
        let s3 := { s2 with daemon_cache := derase host s2.daemon_cache }
        let s4 := reset_con s3 host
        ({ s4 with eventSet := true }, .ok ("Removed host " ++ host))

/-- `update_host_addr`: require the host registered, update its address,
reset its connection. -/
def update_host_addr (s : ModState) (host addr : String) :
    ModState × Except HostErr String :=
  match dget s.inventory host with
  | none => (s, .error (.notFound host))
  | some info =>
      let s1 := { s with inventory := dinsert host { info with addr := addr } s.inventory }
      let s2 := reset_con s1 host
      ({ s2 with eventSet := true }, .ok ("Updated host " ++ host ++ " addr to " ++ addr))

/-- `add_host_label`: require the host registered; initialize the `labels`
key if missing; append the label only when not already present. -/
def add_host_label (s : ModState) (host label : String) :
    ModState × Except HostErr String :=
  match dget s.inventory host with
  | none => (s, .error (.notFound host))
  | some info =>
      let labels := info.labels.getD []
      let labels' := if labels.contains label then labels else labels ++ [label]
      ({ s with inventory := dinsert host { info with labels := some labels' } s.inventory },
       .ok ("Added label " ++ label ++ " to host " ++ host))

/-- `remove_host_label`: require the host registered; initialize the
`labels` key if missing; remove the first occurrence of the label only
when present. -/
def remove_host_label (s : ModState) (host label : String) :
    ModState × Except HostErr String :=
  match dget s.inventory host with
  | none => (s, .error (.notFound host))
  | some info =>
      let labels := info.labels.getD []
      let labels' := if labels.contains label then labels.erase label else labels
      ({ s with inventory := dinsert host { info with labels := some labels' } s.inventory },
       .ok ("Removed label " ++ label ++ " from host " ++ host))

/-- The cache-sync loop of `CephadmOrchestrator.__init__` applied to one
cache: add a fresh entry for every inventory host missing from the cache,
then drop every cache key not present in the inventory. -/
def init_sync_cache (inv : List (String × HostInfo))
    (c : List (String × OutdatableData)) : List (String × OutdatableData) :=
  let c1 := inv.foldl (fun acc p => if dmem p.1 acc then acc else acc ++ [(p.1, OutdatableData.fresh)]) c
  c1.filter (fun p => dmem p.1 inv)

/-- Module construction, restricted to the state it synchronizes: ensure
the host lists of both caches agree with the loaded inventory. -/
def init_sync (s : ModState) : ModState :=
  { s with inventory_cache := init_sync_cache s.inventory s.inventory_cache,
           daemon_cache := init_sync_cache s.inventory s.daemon_cache }

/-- The inventory/cache synchronization invariant: a hostname is a key of
the inventory iff it is a key of both the device-inventory cache and the
daemon cache. -/
def hosts_in_sync (s : ModState) : Prop :=
  ∀ h : String, dmem h s.inventory = true ↔
    (dmem h s.inventory_cache = true ∧ dmem h s.daemon_cache = true)

/-- The current label list of a registered host, with an absent `labels`
key (or an unregistered host) read as the empty list. -/
def host_labels (s : ModState) (host : String) : List String :=
  match dget s.inventory host with
  | none => []
  | some info => info.labels.getD []

/-- The inventory value written by `add_host_label` for a registered host:
`labels` initialized if missing, the label appended only when absent. -/
def info_after_add_label (info : HostInfo) (label : String) : HostInfo :=
  { info with labels := some (if (info.labels.getD []).contains label
      then info.labels.getD [] else info.labels.getD [] ++ [label]) }

/-- The inventory value written by `remove_host_label` for a registered
host: `labels` initialized if missing, the first occurrence of the label
removed when present. -/
def info_after_remove_label (info : HostInfo) (label : String) : HostInfo :=
  { info with labels := some (if (info.labels.getD []).contains label
      then (info.labels.getD []).erase label else info.labels.getD []) }

/-! ### Daemon descriptions and the unique-name generator -/

/-- Modelled from the spec: `DaemonDescription` of the orchestrator
interface module (not under src/), with exactly the fields `_get_daemons`
fills in. -/
structure DaemonDescription where
  daemon_type : String := ""
  daemon_id : String := ""
  nodename : String := ""
  container_id : Option String := none
  container_image_name : Option String := none
  container_image_id : Option String := none
  version : Option String := none
  status : Option Int := none
  status_desc : String := "unknown"
  last_refresh : Option String := none
deriving Repr, DecidableEq

/-- What six draws of `random.choice(string.ascii_lowercase)` produce: a
six-character string of lowercase ASCII letters. -/
def is_random_tag (t : String) : Bool :=
  decide (t.data.length = 6) && t.data.all (fun c => 'a' ≤ c && c ≤ 'z')

/-- The host name truncated at its first dot (`host.split('.')[0]` when a
dot occurs, the host unchanged otherwise). -/
def short_host (host : String) : String :=
  if host.data.contains '.' then String.mk ((splitOnDot host.data).headD host.data)
  else host

/-- The optional `prefix.` that `get_unique_name` prepends. -/
def pfxStr : Option String → String
  | some p => p ++ "."
  | none => ""

/-- The generator loop of `get_unique_name`: draw tags from the random
stream until the built name collides with no existing `daemon_id`
(`none` when the supply is exhausted; the source would keep drawing). -/
def get_unique_name_from (host : String) (existing : List DaemonDescription)
    (pfx : Option String) : List String → Option String
  | [] => none
  | t :: ts =>
      let name := pfxStr pfx ++ short_host host ++ "." ++ t
      if (existing.filter (fun d => d.daemon_id == name)).length ≠ 0 then
        get_unique_name_from host existing pfx ts
      else some name

/-- `get_unique_name`: a forced name already used as a `daemon_id` raises;
a fresh forced name is returned verbatim; otherwise the generator loop
runs on the random stream. -/
def get_unique_name (host : String) (existing : List DaemonDescription)
    (pfx : Option String) (forcename : Option String) (rand : List String) :
    Except String (Option String) :=
  match forcename with
  | some f =>
      if (existing.filter (fun d => d.daemon_id == f)).length ≠ 0 then
        .error ("specified name " ++ f ++ " already in use")
      else .ok (some f)
  | none => .ok (get_unique_name_from host existing pfx rand)

/-! ### Manager scale-down (`apply_mgr`, `delta < 0` branch) -/

/-- The manager map as read from `get('mgr_map')`: the active manager name
(empty when there is none) and the standby names. -/
structure MgrMap where
  active_name : String := ""
  standbys : List String := []
deriving Repr, DecidableEq

/-- The `connected` list built by the scale-down branch of `apply_mgr`:
the active manager name when truthy, then every standby name. -/
def mgr_connected (m : MgrMap) : List String :=
  (if m.active_name ≠ "" then [m.active_name] else []) ++ m.standbys

/-- One removal-list entry, `("type.id", nodename)`. -/
def victim (d : DaemonDescription) : String × String :=
  (d.daemon_type ++ "." ++ d.daemon_id, d.nodename)

/-- First scale-down pass: queue managers whose `daemon_id` the manager
map does not list, decrementing the quota and breaking at zero; returns
the queue and the remaining quota. -/
def pick_unconnected (conn : List String) :
    List DaemonDescription → Nat → List (String × String) × Nat
  | [], n => ([], n)
  | d :: ds, n =>
      if conn.contains d.daemon_id then pick_unconnected conn ds n
      else
        let n' := n - 1
        if n' = 0 then ([victim d], 0)
        else
          let r := pick_unconnected conn ds n'
          (victim d :: r.1, r.2)

/-- Fallback pass (`remove *any* mgr`): queue daemons from the start of
the observed list, decrementing the quota and breaking at zero; it skips
neither connected managers nor already-queued victims. -/
def pick_any : List DaemonDescription → Nat → List (String × String)
  | [], _ => []
  | d :: ds, n =>
      let n' := n - 1
      if n' = 0 then [victim d] else victim d :: pick_any ds n'

/-- The removal list computed by the `spec.count < num_mgrs` branch of
`apply_mgr`: unconnected managers first, then — if the quota is not yet
met — any managers from the start of the observed list. -/
def apply_mgr_victims (daemons : List DaemonDescription) (m : MgrMap) (count : Nat) :
    List (String × String) :=
  let num_to_remove := daemons.length - count
  let r := pick_unconnected (mgr_connected m) daemons num_to_remove
  if r.2 > 0 then r.1 ++ pick_any daemons r.2 else r.1

/-- A manager daemon observed on (and named after) one host. -/
def mgrD (h : String) : DaemonDescription :=
  { daemon_type := "mgr", daemon_id := h, nodename := h }

/-- The scenario manager map: `h1` active, `h2`/`h3` standbys. -/
def wMgrMap : MgrMap := { active_name := "h1", standbys := ["h2", "h3"] }

/-! ### Upgrade state and the upgrade commands -/

/-- The persisted upgrade-state blob; a deleted or absent `paused` key is
`false`, a present truthy one is `true`. -/
structure UpgradeState where
  target_name : String
  target_id : Option String := none
  target_version : Option String := none
  image_id : Option String := none
  error : Option String := none
  paused : Bool := false
deriving Repr, DecidableEq

/-- Outcome of one upgrade command: its message, the resulting upgrade
state, and whether `_save_upgrade_state` ran. -/
structure UpgCmdResult where
  msg : String
  state : Option UpgradeState
  saved : Bool
deriving Repr, DecidableEq

/-- `upgrade_pause`: error without an upgrade; a no-op on an already-paused
state; otherwise set `paused` and persist. -/
def upgrade_pause (st? : Option UpgradeState) : Except String UpgCmdResult :=
  match st? with
  | none => .error "No upgrade in progress"
  | some st =>
      if st.paused then
        .ok ⟨"Upgrade to " ++ st.target_name ++ " already paused", some st, false⟩
      else
        .ok ⟨"Paused upgrade to " ++ st.target_name, some { st with paused := true }, true⟩

/-- `upgrade_resume`: error without an upgrade; a no-op on a non-paused
state; otherwise delete `paused` and persist. -/
def upgrade_resume (st? : Option UpgradeState) : Except String UpgCmdResult :=
  match st? with
  | none => .error "No upgrade in progress"
  | some st =>
      if ! st.paused then
        .ok ⟨"Upgrade to " ++ st.target_name ++ " not paused", some st, false⟩
      else
        .ok ⟨"Resumed upgrade to " ++ st.target_name, some { st with paused := false }, true⟩

/-- `upgrade_stop`: with no upgrade in progress it returns early with a
message and no side effect; otherwise it drops the state and persists. -/
def upgrade_stop (st? : Option UpgradeState) : Except String UpgCmdResult :=
  match st? with
  | none => .ok ⟨"No upgrade in progress", none, false⟩
  | some st => .ok ⟨"Stopped upgrade to " ++ st.target_name, none, true⟩

/-! ### Placement and the monitor apply path -/

/-- Modelled from the spec: one explicit placement entry
`(hostname, network, name)`; empty strings stand for the absent optional
fields. -/
structure HostPlacementSpec where
  hostname : String
  network : String := ""
  name : String := ""
deriving Repr, DecidableEq

/-- Modelled from the spec: a placement is an explicit host list, a label
selector, or a bare count. -/
structure PlacementSpec where
  hosts : List HostPlacementSpec := []
  label : Option String := none
  count : Option Nat := none
deriving Repr, DecidableEq

/-- Modelled from the spec: a service spec `(name, placement, count)`. -/
structure ServiceSpec where
  name : String := ""
  placement : PlacementSpec := ⟨[], none, none⟩
  count : Nat := 0
deriving Repr, DecidableEq

/-- Error kinds raised on the apply paths. -/
inductive OrchErr
  | validation (msg : String)
  | notImplemented (msg : String)
  | runtime (msg : String)
deriving Repr, DecidableEq

/-- What the mon-apply path does: the no-op completion message, or the
placement entries `_create_mon` would deploy on; errors carry no action. -/
inductive MonApplyResult
  | noop (msg : String)
  | deploy (hosts : List HostPlacementSpec)
deriving Repr, DecidableEq

/-- The hosts known to `_get_hosts` (the device-inventory cache keys). -/
def cache_hosts (s : ModState) : List String :=
  s.inventory_cache.map Prod.fst

/-- `NodeAssignment.load` with the `SimpleScheduler`; the pseudo-random
`random.shuffle` is supplied as an oracle. The scheduler's short take
produces the same length on the retry, so the retry is folded into one
check. -/
def node_assignment_load (getHosts : List String)
    (shuffle : List HostPlacementSpec → List HostPlacementSpec)
    (spec : ServiceSpec) : Except OrchErr ServiceSpec :=
  let spec1 :=
    if spec.placement.label.isSome then
      { spec with placement := { spec.placement with
          hosts := getHosts.map (fun h => ⟨h, "", ""⟩) } }
    else spec
  if spec1.placement.label.isNone && spec1.placement.hosts.isEmpty
      && decide (0 < spec1.placement.count.getD 0) then
    if getHosts.isEmpty then
      .error (.runtime "List of host candidates is empty")
    else
      let candidates :=
        (shuffle (getHosts.map (fun h => ⟨h, "", ""⟩))).take (spec1.placement.count.getD 0)
      if candidates.length ≠ spec1.placement.count.getD 0 then
        .error (.validation "Cannot place the requested number of daemons")
      else
        .ok { spec1 with placement := { spec1.placement with hosts := candidates } }
  else
    .ok spec1

/-- `_update_mons`: the no-op and the unsupported-downscale check come
first, then host registration, per-entry networks, name clashes with the
observed monitors, and the provided-hosts count; only then monitors are
created on the placement hosts. -/
def update_mons (s : ModState) (numMons : Nat) (spec : ServiceSpec)
    (daemons : List DaemonDescription) : Except OrchErr MonApplyResult :=
  if spec.count = numMons then
    .ok (.noop "The requested number of monitors exist.")
  else if spec.count < numMons then
    .error (.notImplemented "Removing monitors is not supported.")
  else if ! spec.placement.hosts.all (fun h => dmem h.hostname s.inventory_cache) then
    .error (.runtime "hosts not registered")
  else if spec.placement.hosts.any (fun h => h.network == "") then
    .error (.runtime "missing a network spec")
  else if spec.placement.hosts.any
      (fun h => h.name != "" && daemons.any (fun d => d.daemon_id == h.name)) then
    .error (.runtime "name already exists")
  else if spec.placement.hosts.length < spec.count - numMons then
    .error (.runtime "not enough hosts provided")
  else
    .ok (.deploy spec.placement.hosts)

/-- `apply_mon`: reject a placement with neither hosts nor label, resolve
the placement through `NodeAssignment`, then run `_update_mons` against
the current monitor-map size. -/
def apply_mon (s : ModState) (numMons : Nat)
    (shuffle : List HostPlacementSpec → List HostPlacementSpec)
    (spec : ServiceSpec) (daemons : List DaemonDescription) :
    Except OrchErr MonApplyResult :=
  if spec.placement.hosts.isEmpty && spec.placement.label.isNone then
    .error (.validation "Mons need a host spec. (host, network, name(opt))")
  else
    match node_assignment_load (cache_hosts s) shuffle spec with
    | .error e => .error e
    | .ok spec1 => update_mons s numMons spec1 daemons

/-! ### The upgrade pass (`_do_upgrade`) -/

/-- The remote/cluster world read by one `_do_upgrade` pass. -/
structure UpgEnv where
  pullTarget : Except String (String × String)
  inspectCode : String → Nat
  inspectImageId : String → Option String
  pullCode : String → Nat
  pullImageId : String → Option String
  okToStop : String → String → Bool
  standbys : Nat
  activeMgrId : String
  imageSettings : List (String × String)

/-- The observable effects of one `_do_upgrade` pass: the in-memory and
persisted upgrade state, the raised health-check ids, the
`container_image` config sets/removals, the redeploy actions issued, and
whether a manager fail-over was requested. -/
structure UpgWorld where
  upgrade_state : Option UpgradeState
  saved : List (Option UpgradeState) := []
  health : List String := []
  config_sets : List (String × String) := []
  config_rms : List String := []
  redeploys : List (String × String × String) := []
  mgr_failed : Bool := false
deriving Repr, DecidableEq

/-- Raise a health check (the dict keyed by alert id). -/
def add_health (hs : List String) (a : String) : List String :=
  if hs.contains a then hs else hs ++ [a]

/-- Clear a health check if raised. -/
def del_health (hs : List String) (a : String) : List String :=
  hs.filter (fun x => x != a)

/-- `_fail_upgrade`: record the error on the upgrade state, set `paused`,
persist, and raise the alert. -/
def fail_upgrade (w : UpgWorld) (st : UpgradeState) (alertId summary : String) :
    UpgWorld :=
  { w with
    upgrade_state := some { st with error := some (alertId ++ ": " ++ summary),
                                    paused := true }
    saved := w.saved ++ [some { st with error := some (alertId ++ ": " ++ summary),
                                        paused := true }]
    health := add_health w.health alertId }

/-- `_wait_for_ok_to_stop`: immediately true for types outside
`{mon, osd, mds}`; for those, the final verdict of the bounded retry loop
is supplied by the environment. -/
def wait_ok_to_stop (env : UpgEnv) (d : DaemonDescription) : Bool :=
  if ["mon", "osd", "mds"].contains d.daemon_type then
    env.okToStop d.daemon_type d.daemon_id
  else true

/-- Result of the inner per-daemon loop: the pass returned early, or the
loop finished with the accumulated `need_upgrade_self` flag. -/
inductive DaemonLoopRes
  | ret (w : UpgWorld)
  | done (w : UpgWorld) (needSelf : Bool)

/-- The ok-to-stop gate followed by the per-daemon `container_image`
config set and the redeploy, after which the pass yields. -/
def redeploy_step (env : UpgEnv) (tname : String) (dtype : String)
    (d : DaemonDescription) (w : UpgWorld) : DaemonLoopRes :=
  if ! wait_ok_to_stop env d then .ret w
  else .ret { w with
    config_sets := w.config_sets ++ [(dtype ++ "." ++ d.daemon_id, tname)]
    redeploys := w.redeploys ++ [(d.daemon_type, d.daemon_id, d.nodename)] }

/-- The per-daemon loop of one daemon type: skip other types, abort the
pass on an unknown image id, skip daemons already at the target, flag the
active manager for self-upgrade, else inspect/pull the target image on the
daemon's host (failing the upgrade on a pull error, or re-targeting when
the pulled id differs) and redeploy. -/
def upgrade_type_daemons (env : UpgEnv) (tname tid dtype : String)
    (st : UpgradeState) (w : UpgWorld) (needSelf : Bool) :
    List DaemonDescription → DaemonLoopRes
  | [] => .done w needSelf
  | d :: ds =>
      if d.daemon_type != dtype then
        upgrade_type_daemons env tname tid dtype st w needSelf ds
      else
        match d.container_image_id with
        | none => .ret w
        | some iid =>
            if iid == tid then
              upgrade_type_daemons env tname tid dtype st w needSelf ds
            else if dtype == "mgr" && d.daemon_id == env.activeMgrId then
              upgrade_type_daemons env tname tid dtype st w true ds
            else if env.inspectCode d.nodename != 0
                || env.inspectImageId d.nodename != some tid then
              if env.pullCode d.nodename != 0 then
                .ret (fail_upgrade w st "UPGRADE_FAILED_PULL"
                  "Upgrade: failed to pull target image")
              else if env.pullImageId d.nodename != some tid then
                .ret { w with
                  upgrade_state := some { st with image_id := env.pullImageId d.nodename }
                  saved := w.saved
                    ++ [some { st with image_id := env.pullImageId d.nodename }] }
              else redeploy_step env tname dtype d w
            else redeploy_step env tname dtype d w

/-- Result of one daemon type: the pass returned early, or it moves on to
the next type. -/
inductive PassRes
  | ret (w : UpgWorld)
  | next (w : UpgWorld)

/-- One daemon type of the fixed upgrade order: run the per-daemon loop;
handle `need_upgrade_self` (fail without a standby, else fail over and
return); once the type is at target, clear the no-standby alert (managers),
push the per-type `container_image` and drop per-daemon overrides. -/
def upgrade_one_type (env : UpgEnv) (tname tid dtype : String) (st : UpgradeState)
    (daemons : List DaemonDescription) (w : UpgWorld) : PassRes :=
  match upgrade_type_daemons env tname tid dtype st w false daemons with
  | .ret w' => .ret w'
  | .done w' needSelf =>
      if needSelf then
        if env.standbys = 0 then
          .ret (fail_upgrade w' st "UPGRADE_NO_STANDBY_MGR"
            "Upgrade: Need standby mgr daemon")
        else .ret { w' with mgr_failed := true }
      else
        let w1 := if dtype == "mgr" then
            { w' with health := del_health w'.health "UPGRADE_NO_STANDBY_MGR" }
          else w'
        let w2 := if dget env.imageSettings dtype != some tname then
            { w1 with config_sets := w1.config_sets ++ [(dtype, tname)] }
          else w1
        let toClean := (env.imageSettings.map Prod.fst).filter
            (fun sec => (dtype ++ ".").data.isPrefixOf sec.data)
        .next { w2 with config_rms := w2.config_rms ++ toClean }

/-- Fold the pass over the daemon types in order; `false` means the pass
returned before finishing every type. -/
def upgrade_types (env : UpgEnv) (tname tid : String) (st : UpgradeState)
    (daemons : List DaemonDescription) (w : UpgWorld) :
    List String → UpgWorld × Bool
  | [] => (w, true)
  | t :: ts =>
      match upgrade_one_type env tname tid t st daemons w with
      | .ret w' => (w', false)
      | .next w' => upgrade_types env tname tid st daemons w' ts

/-- The per-type walk plus, when every type completed, the final cleanup:
global `container_image`, per-type removals, and clearing the upgrade
state. -/
def do_upgrade_main (env : UpgEnv) (daemons : List DaemonDescription)
    (w : UpgWorld) (st : UpgradeState) (tid : String) : UpgWorld :=
  match upgrade_types env st.target_name tid st daemons w
      ["mgr", "mon", "osd", "rgw", "mds"] with
  | (w', false) => w'
  | (w', true) =>
      { w' with
        config_sets := w'.config_sets ++ [("global", st.target_name)]
        config_rms := w'.config_rms ++ ["mgr", "mon", "osd", "rgw", "mds"]
        upgrade_state := none
        saved := w'.saved ++ [none] }

/-- `_do_upgrade`: nothing without an upgrade state; learn the target image
id on the first pass (a failed first pull fails the upgrade); then walk
the daemon types. -/
def do_upgrade (env : UpgEnv) (daemons : List DaemonDescription) (w : UpgWorld) :
    UpgWorld :=
  match w.upgrade_state with
  | none => w
  | some st =>
      match st.target_id with
      | none =>
          match env.pullTarget with
          | .error _ =>
              fail_upgrade w st "UPGRADE_FAILED_PULL"
                "Upgrade: failed to pull target image"
          | .ok (tid, tver) =>
              do_upgrade_main env daemons
                { w with
                  upgrade_state :=
                    some { st with target_id := some tid, target_version := some tver }
                  saved := w.saved
                    ++ [some { st with target_id := some tid,
                                       target_version := some tver }] }
                { st with target_id := some tid, target_version := some tver } tid
      | some tid => do_upgrade_main env daemons w st tid

/-! ### `_get_daemons` (cached path) -/

/-- `items_filtered`: modelled from the spec — the cache items restricted
to the wanted keys, or all items when no filter is given. -/
def items_filtered (c : List (String × OutdatableData)) (wanted : Option (List String)) :
    List (String × OutdatableData) :=
  match wanted with
  | none => c
  | some ks => c.filter (fun p => ks.contains p.1)

/-- The synthetic placeholder served for a host that has never been
refreshed. -/
def synthetic_entry (fsid : String) : DaemonJson :=
  { name := "*.*", style := "cephadm:v1", fsid := fsid }

/-- The per-host dispatch of `_get_daemons` before any remote call: which
hosts will be refreshed remotely (`wait_for_args`), and the daemon JSON
served from the cache for the others. -/
structure GetDaemonsPlan where
  daemonsMap : List (String × List DaemonJson) := []
  waitHosts : List String := []
deriving Repr, DecidableEq

/-- The loop over `daemon_cache.items_filtered(keys)`: refresh
unconditionally, refresh when stale, serve the synthetic entry when no
`last_refresh` was ever recorded, else serve the cached data. -/
def get_daemons_plan_items (fsid : String) (timeout now : Nat)
    (refresh maybe_refresh : Bool) :
    List (String × OutdatableData) → GetDaemonsPlan
  | [] => ⟨[], []⟩
  | (h, info) :: rest =>
      let p := get_daemons_plan_items fsid timeout now refresh maybe_refresh rest
      if refresh then ⟨p.daemonsMap, h :: p.waitHosts⟩
      else if maybe_refresh && info.outdated timeout now then
        ⟨p.daemonsMap, h :: p.waitHosts⟩
      else if info.last_refresh.isNone then
        ⟨(h, [synthetic_entry fsid]) :: p.daemonsMap, p.waitHosts⟩
      else ⟨(h, info.data) :: p.daemonsMap, p.waitHosts⟩

/-- The dispatch of `_get_daemons` over the (possibly host-filtered)
daemon cache. -/
def get_daemons_plan (s : ModState) (host : Option String)
    (refresh maybe_refresh : Bool) (timeout now : Nat) : GetDaemonsPlan :=
  get_daemons_plan_items s.fsid timeout now refresh maybe_refresh
    (items_filtered s.daemon_cache (host.map (fun h => [h])))

/-- The `sd.status` lookup table; an unlisted state raises `KeyError`. -/
def state_status : String → Option Int
  | "running" => some 1
  | "stopped" => some 0
  | "error" => some (-1)
  | "unknown" => some (-1)
  | _ => none

/-- `'.'.join(parts)`. -/
def join_dot (parts : List (List Char)) : String :=
  String.mk (List.intercalate ['.'] parts)

/-- The `DaemonDescription` fields `_get_daemons_result` copies out of one
cached JSON entry. -/
def mk_desc (dt di host : String) (d : DaemonJson) (status : Option Int)
    (desc : String) : DaemonDescription :=
  { daemon_type := dt
    daemon_id := di
    nodename := host
    container_id := d.container_id
    container_image_name := d.container_image_name
    container_image_id := d.container_image_id
    version := d.version
    status := status
    status_desc := desc
    last_refresh := d.last_refresh }

/-- Build one `DaemonDescription` from a cached JSON entry, in the order
of `_get_daemons_result`: style prefix, fsid, dotted name, then the
type/id/service-name filters, then the remaining fields and the status
table. `ok none` means the entry is filtered out; `error` models the
`KeyError` on an unlisted state. -/
def build_daemon_desc (fsid : String) (dtype did svc : Option String)
    (host : String) (d : DaemonJson) : Except String (Option DaemonDescription) :=
  if ! "cephadm".data.isPrefixOf d.style.data then .ok none
  else if d.fsid != fsid then .ok none
  else if ! d.name.data.contains '.' then .ok none
  else
    let parts := splitOnDot d.name.data
    let dt := String.mk (parts.headD [])
    if dtype.isSome && dtype != some dt then .ok none
    else
      let di := join_dot (parts.drop 1)
      if did.isSome && did != some di then .ok none
      else if svc.isSome
          && ! ((svc.getD "" ++ ".").data.isPrefixOf di.data) then .ok none
      else
        match d.state with
        | none => .ok (some (mk_desc dt di host d none "unknown"))
        | some st =>
            match state_status st with
            | none => .error ("KeyError: " ++ st)
            | some code => .ok (some (mk_desc dt di host d (some code) st))

/-- Build the descriptions of one host's served JSON list. -/
def build_host_daemons (fsid : String) (dtype did svc : Option String)
    (host : String) : List DaemonJson → Except String (List DaemonDescription)
  | [] => .ok []
  | d :: ds =>
      match build_daemon_desc fsid dtype did svc host d with
      | .error e => .error e
      | .ok none => build_host_daemons fsid dtype did svc host ds
      | .ok (some sd) =>
          match build_host_daemons fsid dtype did svc host ds with
          | .error e => .error e
          | .ok rest => .ok (sd :: rest)

/-- Build the full result over the served per-host map. -/
def build_all_daemons (fsid : String) (dtype did svc : Option String) :
    List (String × List DaemonJson) → Except String (List DaemonDescription)
  | [] => .ok []
  | (h, ls) :: rest =>
      match build_host_daemons fsid dtype did svc h ls with
      | .error e => .error e
      | .ok per =>
          match build_all_daemons fsid dtype did svc rest with
          | .error e => .error e
          | .ok more => .ok (per ++ more)

/-- `_get_daemons` with `refresh = maybe_refresh = false`: `wait_for_args`
stays empty, no remote call happens, and the result is built from the
served map. -/
def get_daemons_cached (s : ModState) (dtype did svc : Option String)
    (host : Option String) (timeout now : Nat) :
    Except String (List DaemonDescription) :=
  build_all_daemons s.fsid dtype did svc
    (get_daemons_plan s host false false timeout now).daemonsMap

/-- The description the synthetic `*.*` entry turns into. -/
def star_desc (host : String) : DaemonDescription :=
  { daemon_type := "*", daemon_id := "*", nodename := host }

/-! ### Concrete sample values used by the witnesses -/

/-- A reachable one-host state used to instantiate the theorems. -/
def wState : ModState :=
  { fsid := "fsid0",
    inventory := [("h1", { addr := "h1", labels := some [] })],
    inventory_cache := [("h1", OutdatableData.fresh)],
    daemon_cache := [("h1", OutdatableData.fresh)],
    cons := [], nextCon := 0, eventSet := false }

/-- A remote world where every check-host succeeds. -/
def wEnvOk : CheckEnv := ⟨fun _ => 0⟩

/-- A remote world where every check-host fails. -/
def wEnvFail : CheckEnv := ⟨fun _ => 1⟩

/-- A monitor spec with one explicit placement entry and count 2. -/
def wMonSpec : ServiceSpec :=
  { name := "mon",
    placement := { hosts := [{ hostname := "h1", network := "10.0.0.0/24" }] },
    count := 2 }

/-- An upgrade in progress towards image id `B`. -/
def wUpgSt : UpgradeState :=
  { target_name := "ceph/ceph:v15", target_id := some "B" }

/-- A manager daemon on host `h2` still at image id `A`. -/
def wUpgD : DaemonDescription :=
  { daemon_type := "mgr", daemon_id := "x", nodename := "h2",
    container_image_id := some "A" }

/-- A world where the target image is rejected on every host: inspect
shows the old image, and every pull exits 1. -/
def wUpgEnv : UpgEnv :=
  { pullTarget := .ok ("B", "15.2.0"),
    inspectCode := fun _ => 0,
    inspectImageId := fun _ => some "A",
    pullCode := fun _ => 1,
    pullImageId := fun _ => none,
    okToStop := fun _ _ => true,
    standbys := 1,
    activeMgrId := "y",
    imageSettings := [] }

/-- The pass starts with the in-progress state and no effects yet. -/
def wUpgW : UpgWorld := { upgrade_state := some wUpgSt }

/-! ## Theorems -/

/-! ### Dictionary lemmas -/

theorem dmem_nil {α : Type} (k : String) : dmem k ([] : List (String × α)) = false := rfl

theorem dmem_cons {α : Type} (k : String) (p : String × α) (l : List (String × α)) :
    dmem k (p :: l) = (p.1 == k || dmem k l) := by
  simp [dmem, List.any_cons]

theorem dmem_dinsert {α : Type} (a k : String) (v : α) (l : List (String × α)) :
    dmem a (dinsert k v l) = (k == a || dmem a l) := by
  induction l with
  | nil => simp [dinsert, dmem]
  | cons p ps ih =>
      by_cases h : p.1 = k
      · have hb : (p.1 == k) = true := beq_iff_eq.mpr h
        simp only [dinsert, hb, if_true, dmem_cons, h]
        cases hka : (k == a) <;> simp [dmem_cons, hka]
      · have hb : (p.1 == k) = false := beq_eq_false_iff_ne.mpr h
        simp only [dinsert, hb, Bool.false_eq_true, if_false, dmem_cons, ih]
        cases hpa : (p.1 == a) <;> cases hka : (k == a) <;> simp [hpa, hka]

theorem dmem_derase {α : Type} (a k : String) (l : List (String × α)) :
    dmem a (derase k l) = (a != k && dmem a l) := by
  induction l with
  | nil => simp [derase, dmem_nil]
  | cons p ps ih =>
      simp only [derase, List.filter_cons] at *
      by_cases h : p.1 = k
      · have hb : (p.1 != k) = false := by simp [bne_iff_ne, h]
        simp only [hb, Bool.false_eq_true, if_false, ih, dmem_cons]
        by_cases ha : a = k
        · subst ha; simp
        · have hpa : (p.1 == a) = false := by
            apply beq_eq_false_iff_ne.mpr
            rw [h]
            exact Ne.symm ha
          simp [hpa]
      · have hb : (p.1 != k) = true := by simp [bne_iff_ne, h]
        simp only [hb, if_true, dmem_cons, ih]
        by_cases ha : a = k
        · subst ha
          have hpa : (p.1 == a) = false := beq_eq_false_iff_ne.mpr h
          simp [hpa]
        · have hak : (a != k) = true := by simp [bne_iff_ne, ha]
          simp [hak]

theorem dinsert_not_mem {α : Type} (k : String) (v : α) (l : List (String × α))
    (h : dmem k l = false) : dinsert k v l = l ++ [(k, v)] := by
  induction l with
  | nil => rfl
  | cons p ps ih =>
      simp only [dmem_cons, Bool.or_eq_false_iff] at h
      simp only [dinsert, h.1, Bool.false_eq_true, if_false, List.cons_append,
        List.cons.injEq, true_and]
      exact ih h.2

theorem derase_not_mem {α : Type} (k : String) (l : List (String × α))
    (h : dmem k l = false) : derase k l = l := by
  induction l with
  | nil => rfl
  | cons p ps ih =>
      simp only [dmem_cons, Bool.or_eq_false_iff] at h
      simp only [derase, List.filter_cons]
      have : (p.1 != k) = true := by
        simp only [bne_iff_ne, ne_eq]
        intro hc
        simp [hc] at h
      simp only [this, if_true]
      have := ih h.2
      simp only [derase] at this
      rw [this]

theorem derase_append_not_mem {α : Type} (k : String) (v : α) (l : List (String × α))
    (h : dmem k l = false) : derase k (l ++ [(k, v)]) = l := by
  simp only [derase, List.filter_append]
  have h1 : List.filter (fun p => p.1 != k) l = l := derase_not_mem k l h
  simp only [derase] at h1
  rw [h1]
  simp

theorem dget_eq_none_iff {α : Type} (l : List (String × α)) (k : String) :
    dget l k = none ↔ dmem k l = false := by
  induction l with
  | nil => simp [dget, dmem_nil]
  | cons p ps ih =>
      by_cases h : p.1 = k
      · simp [dget, dmem_cons, h, List.find?]
      · simp only [dget, List.find?, dmem_cons] at *
        have : (p.1 == k) = false := by simp [h]
        simp [this, ih]

theorem dmem_of_dget {α : Type} {l : List (String × α)} {k : String} {v : α}
    (h : dget l k = some v) : dmem k l = true := by
  cases hm : dmem k l
  · rw [(dget_eq_none_iff l k).mpr hm] at h
    exact absurd h (by simp)
  · rfl

theorem dmem_append {α : Type} (k : String) (l1 l2 : List (String × α)) :
    dmem k (l1 ++ l2) = (dmem k l1 || dmem k l2) := by
  simp [dmem, List.any_append]

theorem dget_dinsert_self {α : Type} (k : String) (v : α) (l : List (String × α)) :
    dget (dinsert k v l) k = some v := by
  induction l with
  | nil => simp [dinsert, dget, List.find?]
  | cons p ps ih =>
      by_cases h : p.1 = k
      · have hb : (p.1 == k) = true := beq_iff_eq.mpr h
        simp [dinsert, hb, dget, List.find?]
      · have hb : (p.1 == k) = false := beq_eq_false_iff_ne.mpr h
        simp only [dinsert, hb, Bool.false_eq_true, if_false]
        simp only [dget, List.find?, hb]
        exact ih

theorem dget_dinsert_ne {α : Type} (k a : String) (v : α) (l : List (String × α))
    (hne : a ≠ k) : dget (dinsert k v l) a = dget l a := by
  induction l with
  | nil =>
      simp [dinsert, dget, List.find?, beq_eq_false_iff_ne.mpr (Ne.symm hne)]
  | cons p ps ih =>
      by_cases h : p.1 = k
      · have hb : (p.1 == k) = true := beq_iff_eq.mpr h
        have hpa : (p.1 == a) = false := by
          apply beq_eq_false_iff_ne.mpr
          rw [h]
          exact Ne.symm hne
        have hka : (k == a) = false := beq_eq_false_iff_ne.mpr (Ne.symm hne)
        simp [dinsert, hb, dget, List.find?, hpa, hka]
      · have hb : (p.1 == k) = false := beq_eq_false_iff_ne.mpr h
        simp only [dinsert, hb, Bool.false_eq_true, if_false, dget, List.find?]
        cases hpa : (p.1 == a)
        · simp only [dget] at ih
          exact ih
        · rfl

theorem dinsert_dinsert_self {α : Type} (k : String) (v w : α) (l : List (String × α)) :
    dinsert k v (dinsert k w l) = dinsert k v l := by
  induction l with
  | nil => simp [dinsert]
  | cons p ps ih =>
      by_cases h : p.1 = k
      · have hb : (p.1 == k) = true := beq_iff_eq.mpr h
        simp [dinsert, hb]
      · have hb : (p.1 == k) = false := beq_eq_false_iff_ne.mpr h
        simp [dinsert, hb, ih]

/-! ### Projection lemmas for the connection helpers -/

@[simp] theorem get_connection_inventory (s : ModState) (a : String) :
    (get_connection s a).inventory = s.inventory := by
  unfold get_connection; split <;> rfl

@[simp] theorem get_connection_inventory_cache (s : ModState) (a : String) :
    (get_connection s a).inventory_cache = s.inventory_cache := by
  unfold get_connection; split <;> rfl

@[simp] theorem get_connection_daemon_cache (s : ModState) (a : String) :
    (get_connection s a).daemon_cache = s.daemon_cache := by
  unfold get_connection; split <;> rfl

@[simp] theorem reset_con_inventory (s : ModState) (h : String) :
    (reset_con s h).inventory = s.inventory := by
  unfold reset_con; split <;> rfl

@[simp] theorem reset_con_inventory_cache (s : ModState) (h : String) :
    (reset_con s h).inventory_cache = s.inventory_cache := by
  unfold reset_con; split <;> rfl

@[simp] theorem reset_con_daemon_cache (s : ModState) (h : String) :
    (reset_con s h).daemon_cache = s.daemon_cache := by
  unfold reset_con; split <;> rfl

/-! ### Host-name validation -/

theorem any_not_eq_not_all {α : Type} (l : List α) (f : α → Bool) :
    l.any (fun x => ! f x) = ! l.all f := by
  induction l with
  | nil => rfl
  | cons c cs ih =>
      simp only [List.any_cons, List.all_cons, ih, Bool.not_and]

theorem part_violation_nl_eq (part : List Char) :
    (decide (part.length = 0) || decide (63 < part.length)
      || (decide ((regex_body part).length = 0)
          || (regex_body part).any (fun c => ! host_char_ok c)))
      = ! valid_host_part part := by
  unfold valid_host_part regex_part_match
  rw [Bool.not_and, Bool.not_and, Bool.not_and, any_not_eq_not_all]
  have h1 : decide (part.length = 0) = ! decide (0 < part.length) := by
    rw [← decide_not, decide_eq_decide]; omega
  have h2 : decide (63 < part.length) = ! decide (part.length ≤ 63) := by
    rw [← decide_not, decide_eq_decide]; omega
  have h3 : decide ((regex_body part).length = 0)
      = ! decide (0 < (regex_body part).length) := by
    rw [← decide_not, decide_eq_decide]; omega
  rw [h1, h2, h3, Bool.or_assoc]

theorem hostname_grammar_violation_nl_eq (name : String) :
    hostname_grammar_violation_nl name = ! assert_valid_host name := by
  unfold hostname_grammar_violation_nl assert_valid_host
  rw [Bool.not_and]
  have h1 : decide (250 < name.data.length) = ! decide (name.data.length ≤ 250) := by
    rw [← decide_not, decide_eq_decide]; omega
  rw [h1]
  congr 1
  have h2 : ∀ l : List (List Char), l.any (fun part =>
      decide (part.length = 0) || decide (63 < part.length)
        || (decide ((regex_body part).length = 0)
            || (regex_body part).any (fun c => ! host_char_ok c)))
      = l.any (fun part => ! valid_host_part part) := by
    intro l
    induction l with
    | nil => rfl
    | cons p ps ih => simp only [List.any_cons, ih, part_violation_nl_eq]
  rw [h2, any_not_eq_not_all]

/-! ### Cache synchronization -/

theorem dmem_add_missing (h : String) (inv : List (String × HostInfo))
    (c : List (String × OutdatableData)) :
    dmem h (inv.foldl
      (fun acc p => if dmem p.1 acc then acc else acc ++ [(p.1, OutdatableData.fresh)]) c)
      = (dmem h c || dmem h inv) := by
  induction inv generalizing c with
  | nil => simp [dmem_nil]
  | cons p ps ih =>
      simp only [List.foldl_cons]
      cases hp : dmem p.1 c
      · simp only [hp, Bool.false_eq_true, if_false]
        rw [ih, dmem_append, dmem_cons]
        cases hph : (p.1 == h) <;> cases hc : dmem h c <;>
          simp [dmem_cons, dmem_nil, hph, hc]
      · simp only [hp, if_true]
        rw [ih, dmem_cons]
        cases hph : (p.1 == h)
        · simp [hph]
        · have he : p.1 = h := beq_iff_eq.mp hph
          rw [he] at hp
          simp [hp, hph]

theorem dmem_filter_dmem (h : String) (inv : List (String × HostInfo))
    (l : List (String × OutdatableData)) :
    dmem h (l.filter (fun p => dmem p.1 inv)) = (dmem h l && dmem h inv) := by
  induction l with
  | nil => simp [dmem_nil]
  | cons p ps ih =>
      simp only [List.filter_cons]
      cases hp : dmem p.1 inv
      · simp only [hp, Bool.false_eq_true, if_false, ih, dmem_cons]
        cases hph : (p.1 == h)
        · simp
        · have he : p.1 = h := beq_iff_eq.mp hph
          rw [he] at hp
          simp [hp]
      · simp only [hp, if_true, dmem_cons, ih]
        cases hph : (p.1 == h)
        · simp [hph]
        · have he : p.1 = h := beq_iff_eq.mp hph
          rw [he] at hp
          simp [hph, hp]

theorem hosts_in_sync_congr {s s' : ModState}
    (h1 : s'.inventory = s.inventory) (h2 : s'.inventory_cache = s.inventory_cache)
    (h3 : s'.daemon_cache = s.daemon_cache) (hs : hosts_in_sync s) : hosts_in_sync s' := by
  unfold hosts_in_sync at *
  rw [h1, h2, h3]
  exact hs

theorem hosts_in_sync_init_sync (s : ModState) : hosts_in_sync (init_sync s) := by
  intro h
  show dmem h s.inventory = true ↔ _
  unfold init_sync init_sync_cache
  rw [dmem_filter_dmem, dmem_add_missing, dmem_filter_dmem, dmem_add_missing]
  constructor
  · intro hi
    simp [hi]
  · rintro ⟨h1, -⟩
    exact (Bool.and_eq_true_iff.mp h1).2

theorem hosts_in_sync_add_host (env : CheckEnv) (s : ModState) (spec : HostSpec)
    (hs : hosts_in_sync s) : hosts_in_sync (add_host env s spec).1 := by
  unfold add_host
  cases hv : assert_valid_host spec.hostname
  · simp only [hv, Bool.not_false, if_true]
    exact hs
  · simp only [hv, Bool.not_true, Bool.false_eq_true, if_false]
    by_cases hc : env.checkCode spec.addr ≠ 0
    · rw [if_pos hc]
      exact hosts_in_sync_congr (get_connection_inventory s spec.addr)
        (get_connection_inventory_cache s spec.addr)
        (get_connection_daemon_cache s spec.addr) hs
    · rw [if_neg hc]
      intro h
      simp only [dmem_dinsert, get_connection_inventory, get_connection_inventory_cache,
        get_connection_daemon_cache]
      cases hb : (spec.hostname == h)
      · simp only [Bool.false_or]
        exact hs h
      · simp

theorem hosts_in_sync_remove_host (s : ModState) (host : String)
    (hs : hosts_in_sync s) : hosts_in_sync (remove_host s host).1 := by
  unfold remove_host
  cases hm : dmem host s.inventory
  · simp only [hm, Bool.not_false, if_true]
    exact hs
  · have h2 : dmem host s.inventory_cache = true := ((hs host).mp hm).1
    have h3 : dmem host s.daemon_cache = true := ((hs host).mp hm).2
    simp only [hm, h2, h3, Bool.not_true, Bool.false_eq_true, if_false]
    intro h
    simp only [reset_con_inventory, reset_con_inventory_cache, reset_con_daemon_cache,
      dmem_derase]
    cases hb : (h != host)
    · simp
    · simp only [Bool.true_and]
      exact hs h

theorem hosts_in_sync_update_host_addr (s : ModState) (host addr : String)
    (hs : hosts_in_sync s) : hosts_in_sync (update_host_addr s host addr).1 := by
  unfold update_host_addr
  cases hg : dget s.inventory host
  · exact hs
  · simp only
    intro h
    simp only [reset_con_inventory, reset_con_inventory_cache, reset_con_daemon_cache,
      dmem_dinsert]
    cases hb : (host == h)
    · simp only [Bool.false_or]
      exact hs h
    · have he : host = h := beq_iff_eq.mp hb
      have hm : dmem h s.inventory = true := he ▸ dmem_of_dget hg
      simp [hm, (hs h).mp hm]

theorem hosts_in_sync_add_host_label (s : ModState) (host label : String)
    (hs : hosts_in_sync s) : hosts_in_sync (add_host_label s host label).1 := by
  unfold add_host_label
  cases hg : dget s.inventory host
  · exact hs
  · intro h
    simp only [dmem_dinsert]
    cases hb : (host == h)
    · simp only [Bool.false_or]
      exact hs h
    · have he : host = h := beq_iff_eq.mp hb
      have hm : dmem h s.inventory = true := he ▸ dmem_of_dget hg
      simp [hm, (hs h).mp hm]

theorem hosts_in_sync_remove_host_label (s : ModState) (host label : String)
    (hs : hosts_in_sync s) : hosts_in_sync (remove_host_label s host label).1 := by
  unfold remove_host_label
  cases hg : dget s.inventory host
  · exact hs
  · intro h
    simp only [dmem_dinsert]
    cases hb : (host == h)
    · simp only [Bool.false_or]
      exact hs h
    · have he : host = h := beq_iff_eq.mp hb
      have hm : dmem h s.inventory = true := he ▸ dmem_of_dget hg
      simp [hm, (hs h).mp hm]

/-- C1: every inventory-mutating operation — the construction-time cache
synchronization, `add_host`, `remove_host`, `update_host_addr`, and host
label add/remove — preserves the invariant that a hostname is a key of the
inventory iff it is a key of both the device-inventory cache and the
daemon cache, given that it held before the operation. -/
theorem claim_C1_sync_invariant_preserved
    (s : ModState) (env : CheckEnv) (spec : HostSpec) (host addr label : String)
    (hs : hosts_in_sync s) :
    hosts_in_sync (init_sync s)
    ∧ hosts_in_sync (add_host env s spec).1
    ∧ hosts_in_sync (remove_host s host).1
    ∧ hosts_in_sync (update_host_addr s host addr).1
    ∧ hosts_in_sync (add_host_label s host label).1
    ∧ hosts_in_sync (remove_host_label s host label).1 :=
  ⟨hosts_in_sync_init_sync s, hosts_in_sync_add_host env s spec hs,
   hosts_in_sync_remove_host s host hs, hosts_in_sync_update_host_addr s host addr hs,
   hosts_in_sync_add_host_label s host label hs,
   hosts_in_sync_remove_host_label s host label hs⟩

/-- Witness for C1: the invariant holds at a concrete one-host state and is
preserved by every operation instantiated there. -/
theorem claim_C1_sync_invariant_preserved_witness :
    hosts_in_sync (init_sync wState)
    ∧ hosts_in_sync (add_host wEnvOk wState (HostSpec.ofName "h2")).1
    ∧ hosts_in_sync (remove_host wState "h1").1
    ∧ hosts_in_sync (update_host_addr wState "h1" "10.0.0.1").1
    ∧ hosts_in_sync (add_host_label wState "h1" "mon").1
    ∧ hosts_in_sync (remove_host_label wState "h1" "mon").1 :=
  claim_C1_sync_invariant_preserved wState wEnvOk (HostSpec.ofName "h2") "h1" "10.0.0.1" "mon"
    (by intro h; simp [wState, dmem])

/-- Counterexample to C2: the hostname `a\n` contains a character outside
`[a-zA-Z0-9-]`, so the claim's grammar calls it a violation — yet the
source's `re.match` with the `$`-anchored pattern accepts the trailing
newline, `assert_valid_host` passes, and `add_host` succeeds instead of
raising a validation error. -/
theorem claim_C2_counterexample :
    hostname_grammar_violation "a\n" = true
    ∧ assert_valid_host "a\n" = true
    ∧ (add_host wEnvOk wState (HostSpec.ofName "a\n")).2
        = .ok ("Added host " ++ "a\n") := by
  refine ⟨by decide, by decide, ?_⟩
  rfl

/-- C2 amended: `add_host` raises a validation error iff the hostname
violates the grammar with each dot-separated part judged after
discounting one trailing newline (accepted by the regex's `$` anchor):
longer than 250 chars, a part empty or longer than 63 raw chars, or a
part whose matched body is empty or holds a character outside
`[a-zA-Z0-9-]`; and whenever `add_host` fails — bad name or failed remote
check-host — the inventory and both caches are left unchanged. -/
theorem claim_C2_add_host_validation (env : CheckEnv) (s : ModState) (spec : HostSpec) :
    ((∃ m, (add_host env s spec).2 = .error (.validation m)) ↔
      hostname_grammar_violation_nl spec.hostname = true)
    ∧ (∀ e, (add_host env s spec).2 = Except.error e →
        (add_host env s spec).1.inventory = s.inventory
        ∧ (add_host env s spec).1.inventory_cache = s.inventory_cache
        ∧ (add_host env s spec).1.daemon_cache = s.daemon_cache) := by
  constructor
  · rw [hostname_grammar_violation_nl_eq]
    unfold add_host
    cases hv : assert_valid_host spec.hostname
    · simp only [hv, Bool.not_false, if_true]
      constructor
      · intro _
        trivial
      · intro _
        exact ⟨spec.hostname, rfl⟩
    · simp only [hv, Bool.not_true, Bool.false_eq_true, if_false]
      by_cases hc : env.checkCode spec.addr ≠ 0
      · rw [if_pos hc]
        simp
      · rw [if_neg hc]
        simp
  · intro e he
    unfold add_host at he ⊢
    cases hv : assert_valid_host spec.hostname
    · simp only [hv, Bool.not_false, if_true]
      refine ⟨?_, ?_, ?_⟩ <;> first | rfl | trivial
    · simp only [hv, Bool.not_true, Bool.false_eq_true, if_false] at he ⊢
      by_cases hc : env.checkCode spec.addr ≠ 0
      · rw [if_pos hc]
        exact ⟨get_connection_inventory s spec.addr,
          get_connection_inventory_cache s spec.addr,
          get_connection_daemon_cache s spec.addr⟩
      · rw [if_neg hc] at he
        exact absurd he (by simp)

/-- Witness for the amended C2 at a concrete rejected hostname. -/
theorem claim_C2_add_host_validation_witness :
    ((∃ m, (add_host wEnvOk wState (HostSpec.ofName "bad host")).2 = .error (.validation m)) ↔
      hostname_grammar_violation_nl "bad host" = true)
    ∧ (∀ e, (add_host wEnvOk wState (HostSpec.ofName "bad host")).2 = Except.error e →
        (add_host wEnvOk wState (HostSpec.ofName "bad host")).1.inventory = wState.inventory
        ∧ (add_host wEnvOk wState (HostSpec.ofName "bad host")).1.inventory_cache
            = wState.inventory_cache
        ∧ (add_host wEnvOk wState (HostSpec.ofName "bad host")).1.daemon_cache
            = wState.daemon_cache) :=
  claim_C2_add_host_validation wEnvOk wState (HostSpec.ofName "bad host")

theorem add_host_success_state (env : CheckEnv) (s : ModState) (X : String)
    (labels : List String)
    (hcon : dmem X s.cons = false)
    (hname : assert_valid_host X = true)
    (hcheck : env.checkCode X = 0) :
    (add_host env s { hostname := X, addr := X, labels := labels }).1 =
      { s with
        inventory := dinsert X { addr := X, labels := some labels } s.inventory,
        inventory_cache := dinsert X OutdatableData.fresh s.inventory_cache,
        daemon_cache := dinsert X OutdatableData.fresh s.daemon_cache,
        cons := s.cons ++ [(X, s.nextCon)], nextCon := s.nextCon + 1,
        eventSet := true } := by
  unfold add_host get_connection
  simp only [hname, Bool.not_true, Bool.false_eq_true, if_false, hcon]
  rw [if_neg (by simp [hcheck])]

/-- C8: for a host X not previously registered (absent from the inventory,
both caches, and the connection table), a successful `add_host(X)` followed
by `remove_host(X)` leaves the inventory, the device-inventory cache, the
daemon cache, and the per-host connection table equal to their pre-state
values. -/
theorem claim_C8_add_remove_roundtrip (env : CheckEnv) (s : ModState) (X : String)
    (labels : List String)
    (hinv : dmem X s.inventory = false)
    (hic : dmem X s.inventory_cache = false)
    (hdc : dmem X s.daemon_cache = false)
    (hcon : dmem X s.cons = false)
    (hname : assert_valid_host X = true)
    (hcheck : env.checkCode X = 0) :
    (remove_host (add_host env s { hostname := X, addr := X, labels := labels }).1 X).1.inventory
        = s.inventory
    ∧ (remove_host (add_host env s { hostname := X, addr := X, labels := labels }).1 X).1.inventory_cache
        = s.inventory_cache
    ∧ (remove_host (add_host env s { hostname := X, addr := X, labels := labels }).1 X).1.daemon_cache
        = s.daemon_cache
    ∧ (remove_host (add_host env s { hostname := X, addr := X, labels := labels }).1 X).1.cons
        = s.cons := by
  rw [add_host_success_state env s X labels hcon hname hcheck]
  rw [dinsert_not_mem X _ s.inventory hinv, dinsert_not_mem X _ s.inventory_cache hic,
    dinsert_not_mem X _ s.daemon_cache hdc]
  unfold remove_host
  have h1 : dmem X (s.inventory ++ [(X, ({ addr := X, labels := some labels } : HostInfo))])
      = true := by
    rw [dmem_append]
    simp [dmem]
  have h2 : dmem X (s.inventory_cache ++ [(X, OutdatableData.fresh)]) = true := by
    rw [dmem_append]
    simp [dmem]
  have h3 : dmem X (s.daemon_cache ++ [(X, OutdatableData.fresh)]) = true := by
    rw [dmem_append]
    simp [dmem]
  have h4 : dmem X (s.cons ++ [(X, s.nextCon)]) = true := by
    rw [dmem_append]
    simp [dmem]
  simp only [h1, h2, h3, Bool.not_true, Bool.false_eq_true, if_false]
  unfold reset_con
  simp only [h4, if_true]
  rw [derase_append_not_mem X _ s.inventory hinv,
    derase_append_not_mem X _ s.inventory_cache hic,
    derase_append_not_mem X _ s.daemon_cache hdc,
    derase_append_not_mem X _ s.cons hcon]
  exact ⟨rfl, rfl, rfl, rfl⟩

/-- Witness for C8: round-trip of a fresh host on the one-host sample
state. -/
theorem claim_C8_add_remove_roundtrip_witness :
    (remove_host (add_host wEnvOk wState { hostname := "h2", addr := "h2", labels := [] }).1 "h2").1.inventory
        = wState.inventory
    ∧ (remove_host (add_host wEnvOk wState { hostname := "h2", addr := "h2", labels := [] }).1 "h2").1.inventory_cache
        = wState.inventory_cache
    ∧ (remove_host (add_host wEnvOk wState { hostname := "h2", addr := "h2", labels := [] }).1 "h2").1.daemon_cache
        = wState.daemon_cache
    ∧ (remove_host (add_host wEnvOk wState { hostname := "h2", addr := "h2", labels := [] }).1 "h2").1.cons
        = wState.cons :=
  claim_C8_add_remove_roundtrip wEnvOk wState "h2" []
    (by decide) (by decide) (by decide) (by decide) (by decide) rfl

/-! ### Label operations -/

theorem add_host_label_registered (s : ModState) (host label : String) (info : HostInfo)
    (hg : dget s.inventory host = some info) :
    add_host_label s host label =
      ({ s with inventory := dinsert host (info_after_add_label info label) s.inventory },
       .ok ("Added label " ++ label ++ " to host " ++ host)) := by
  unfold add_host_label info_after_add_label
  rw [hg]

theorem remove_host_label_registered (s : ModState) (host label : String) (info : HostInfo)
    (hg : dget s.inventory host = some info) :
    remove_host_label s host label =
      ({ s with inventory := dinsert host (info_after_remove_label info label) s.inventory },
       .ok ("Removed label " ++ label ++ " from host " ++ host)) := by
  unfold remove_host_label info_after_remove_label
  rw [hg]

theorem contains_if_add (L : List String) (label : String) :
    (if L.contains label then L else L ++ [label]).contains label = true := by
  cases hc : L.contains label
  · simp only [Bool.false_eq_true, if_false]
    simp
  · simp only [if_true, hc]

theorem info_after_add_label_idem (info : HostInfo) (label : String) :
    info_after_add_label (info_after_add_label info label) label
      = info_after_add_label info label := by
  unfold info_after_add_label
  simp only [Option.getD_some, contains_if_add, if_true]

/-- C10: for a registered host, `add_host_label` is idempotent and never
creates a duplicate label entry, and `remove_host_label` of an absent
label leaves the label set unchanged; on an unregistered host both raise
an error and change nothing. -/
theorem claim_C10_label_idempotence (s : ModState) (host label : String) :
    (dmem host s.inventory = true →
       (add_host_label (add_host_label s host label).1 host label).1
           = (add_host_label s host label).1
       ∧ (host_labels (add_host_label s host label).1 host).count label
           = max ((host_labels s host).count label) 1
       ∧ (label ∉ host_labels s host →
            host_labels (remove_host_label s host label).1 host = host_labels s host))
    ∧ (dmem host s.inventory = false →
        add_host_label s host label = (s, .error (.notFound host))
        ∧ remove_host_label s host label = (s, .error (.notFound host))) := by
  constructor
  · intro hm
    obtain ⟨info, hg⟩ : ∃ v, dget s.inventory host = some v := by
      cases hq : dget s.inventory host
      · exact absurd ((dget_eq_none_iff s.inventory host).mp hq) (by simp [hm])
      · exact ⟨_, rfl⟩
    have hL : host_labels s host = info.labels.getD [] := by
      unfold host_labels
      rw [hg]
    rw [add_host_label_registered s host label info hg]
    have hg1 : dget (dinsert host (info_after_add_label info label) s.inventory) host
        = some (info_after_add_label info label) := dget_dinsert_self _ _ _
    refine ⟨?_, ?_, ?_⟩
    · rw [add_host_label_registered _ host label _ hg1]
      rw [info_after_add_label_idem, dinsert_dinsert_self]
    · unfold host_labels
      rw [hg1, hg]
      unfold info_after_add_label
      simp only [Option.getD_some]
      cases hc : (info.labels.getD []).contains label
      · simp only [Bool.false_eq_true, if_false]
        have hnm : label ∉ info.labels.getD [] := by
          simpa using hc
        rw [List.count_append]
        simp [List.count_eq_zero.mpr hnm]
      · simp only [if_true]
        have hmem : label ∈ info.labels.getD [] := by
          simpa using hc
        have hpos : 0 < (info.labels.getD []).count label := List.count_pos_iff.mpr hmem
        omega
    · intro hnm
      rw [hL] at hnm
      have hc : (info.labels.getD []).contains label = false := by
        simpa using hnm
      rw [remove_host_label_registered s host label info hg]
      unfold host_labels
      simp only [dget_dinsert_self, hg]
      unfold info_after_remove_label
      simp only [hc, Bool.false_eq_true, if_false, Option.getD_some]
  · intro hm
    have hq : dget s.inventory host = none := (dget_eq_none_iff s.inventory host).mpr hm
    constructor
    · unfold add_host_label
      rw [hq]
    · unfold remove_host_label
      rw [hq]

/-- Witness for C10 at the one-host sample state. -/
theorem claim_C10_label_idempotence_witness :
    (dmem "h1" wState.inventory = true →
       (add_host_label (add_host_label wState "h1" "mon").1 "h1" "mon").1
           = (add_host_label wState "h1" "mon").1
       ∧ (host_labels (add_host_label wState "h1" "mon").1 "h1").count "mon"
           = max ((host_labels wState "h1").count "mon") 1
       ∧ ("mon" ∉ host_labels wState "h1" →
            host_labels (remove_host_label wState "h1" "mon").1 "h1" = host_labels wState "h1"))
    ∧ (dmem "h1" wState.inventory = false →
        add_host_label wState "h1" "mon" = (wState, .error (.notFound "h1"))
        ∧ remove_host_label wState "h1" "mon" = (wState, .error (.notFound "h1"))) :=
  claim_C10_label_idempotence wState "h1" "mon"

/-! ### Unique-name generation -/

theorem filter_id_length_ne_zero (existing : List DaemonDescription) (name : String) :
    (existing.filter (fun d => d.daemon_id == name)).length ≠ 0 ↔
      ∃ d ∈ existing, d.daemon_id = name := by
  rw [Ne, List.length_eq_zero, List.filter_eq_nil_iff]
  push_neg
  simp

theorem get_unique_name_from_spec (host : String) (existing : List DaemonDescription)
    (pfx : Option String) (rand : List String)
    (hrand : ∀ t ∈ rand, is_random_tag t = true) (name : String)
    (h : get_unique_name_from host existing pfx rand = some name) :
    (∀ d ∈ existing, d.daemon_id ≠ name)
    ∧ ∃ t, is_random_tag t = true
        ∧ name = pfxStr pfx ++ short_host host ++ "." ++ t := by
  induction rand with
  | nil => exact absurd h (by simp [get_unique_name_from])
  | cons t ts ih =>
      unfold get_unique_name_from at h
      by_cases hc :
          (existing.filter
            (fun d => d.daemon_id == pfxStr pfx ++ short_host host ++ "." ++ t)).length ≠ 0
      · rw [if_pos hc] at h
        exact ih (fun u hu => hrand u (List.mem_cons_of_mem _ hu)) h
      · rw [if_neg hc] at h
        obtain rfl := (Option.some.injEq _ _).mp h
        constructor
        · intro d hd heq
          exact hc ((filter_id_length_ne_zero existing _).mpr ⟨d, hd, heq⟩)
        · exact ⟨t, hrand t (List.mem_cons_self _ _), rfl⟩

/-- C3: whenever the unique-name generator returns a name (drawing
six-lowercase-letter tags from the random stream), that name collides with
no `daemon_id` in the provided existing list and has the form
`[prefix.]short-host.XXXXXX`; and a forced name that already occurs as a
`daemon_id` makes the call raise instead of returning. -/
theorem claim_C3_get_unique_name (host : String) (existing : List DaemonDescription)
    (pfx : Option String) (rand : List String) (f : String)
    (hrand : ∀ t ∈ rand, is_random_tag t = true) :
    (∀ name, get_unique_name host existing pfx none rand = .ok (some name) →
       (∀ d ∈ existing, d.daemon_id ≠ name)
       ∧ ∃ t, is_random_tag t = true
           ∧ name = pfxStr pfx ++ short_host host ++ "." ++ t)
    ∧ ((∃ d ∈ existing, d.daemon_id = f) →
        ∃ m, get_unique_name host existing pfx (some f) rand = .error m) := by
  constructor
  · intro name h
    have hfrom : get_unique_name_from host existing pfx rand = some name := by
      unfold get_unique_name at h
      exact (Except.ok.injEq _ _).mp h
    exact get_unique_name_from_spec host existing pfx rand hrand name hfrom
  · intro hex
    refine ⟨"specified name " ++ f ++ " already in use", ?_⟩
    simp only [get_unique_name]
    rw [if_pos ((filter_id_length_ne_zero existing f).mpr hex)]

/-- Witness for C3: a one-daemon existing list, a prefixed draw, and a
forced-name collision. -/
theorem claim_C3_get_unique_name_witness :
    (∀ name, get_unique_name "node1.example.com" [{ daemon_id := "mgr.node1.abcdef" }]
        (some "mgr") none ["abcdef", "ghijkl"] = .ok (some name) →
       (∀ d ∈ [({ daemon_id := "mgr.node1.abcdef" } : DaemonDescription)], d.daemon_id ≠ name)
       ∧ ∃ t, is_random_tag t = true
           ∧ name = pfxStr (some "mgr") ++ short_host "node1.example.com" ++ "." ++ t)
    ∧ ((∃ d ∈ [({ daemon_id := "mgr.node1.abcdef" } : DaemonDescription)],
          d.daemon_id = "mgr.node1.abcdef") →
        ∃ m, get_unique_name "node1.example.com" [{ daemon_id := "mgr.node1.abcdef" }]
          (some "mgr") (some "mgr.node1.abcdef") ["abcdef", "ghijkl"] = .error m) :=
  claim_C3_get_unique_name "node1.example.com" [{ daemon_id := "mgr.node1.abcdef" }]
    (some "mgr") ["abcdef", "ghijkl"] "mgr.node1.abcdef" (by decide)

/-! ### Upgrade command edge cases -/

/-- C9: with no upgrade in progress, `upgrade_stop` succeeds with the
no-upgrade message and changes nothing while `upgrade_pause` and
`upgrade_resume` raise; with an upgrade in progress, pausing an
already-paused state and resuming a non-paused state both succeed without
modifying or persisting the state. -/
theorem claim_C9_upgrade_cmd_edge_cases (st1 st2 : UpgradeState)
    (h1 : st1.paused = true) (h2 : st2.paused = false) :
    upgrade_stop none = .ok ⟨"No upgrade in progress", none, false⟩
    ∧ (∃ m, upgrade_pause none = .error m)
    ∧ (∃ m, upgrade_resume none = .error m)
    ∧ upgrade_pause (some st1)
        = .ok ⟨"Upgrade to " ++ st1.target_name ++ " already paused", some st1, false⟩
    ∧ upgrade_resume (some st2)
        = .ok ⟨"Upgrade to " ++ st2.target_name ++ " not paused", some st2, false⟩ := by
  refine ⟨rfl, ⟨_, rfl⟩, ⟨_, rfl⟩, ?_, ?_⟩
  · simp [upgrade_pause, h1]
  · simp [upgrade_resume, h2]

/-- Witness for C9 at a concrete paused and a concrete running state. -/
theorem claim_C9_upgrade_cmd_edge_cases_witness :
    upgrade_stop none = .ok ⟨"No upgrade in progress", none, false⟩
    ∧ (∃ m, upgrade_pause none = .error m)
    ∧ (∃ m, upgrade_resume none = .error m)
    ∧ upgrade_pause (some { target_name := "ceph/ceph:v15", paused := true })
        = .ok ⟨"Upgrade to " ++ "ceph/ceph:v15" ++ " already paused",
               some { target_name := "ceph/ceph:v15", paused := true }, false⟩
    ∧ upgrade_resume (some { target_name := "ceph/ceph:v15" })
        = .ok ⟨"Upgrade to " ++ "ceph/ceph:v15" ++ " not paused",
               some { target_name := "ceph/ceph:v15" }, false⟩ :=
  claim_C9_upgrade_cmd_edge_cases { target_name := "ceph/ceph:v15", paused := true }
    { target_name := "ceph/ceph:v15" } rfl rfl

/-! ### Manager scale-down victims -/

/-- Counterexample to C4: in the four-manager scenario (`h1` active,
`h2`/`h3` standbys, `h4` disconnected, scale to `count = 2`), the fallback
pass restarts from the head of the observed daemon list. With `h4`
observed first, `mgr.h4` is queued twice — the same daemon appears twice
in the removal list; with `h1` observed first, the second victim is the
active manager `h1`, not one of `{h2, h3}`. -/
theorem claim_C4_counterexample :
    apply_mgr_victims [mgrD "h4", mgrD "h1", mgrD "h2", mgrD "h3"] wMgrMap 2
      = [("mgr.h4", "h4"), ("mgr.h4", "h4")]
    ∧ apply_mgr_victims [mgrD "h1", mgrD "h2", mgrD "h3", mgrD "h4"] wMgrMap 2
      = [("mgr.h4", "h4"), ("mgr.h1", "h1")] := by
  constructor <;> rfl

theorem pick_unconnected_spec (conn : List String) (ds : List DaemonDescription)
    (n : Nat) (hn : 1 ≤ n) :
    pick_unconnected conn ds n =
      (((ds.filter (fun d => ! conn.contains d.daemon_id)).take n).map victim,
       n - (ds.filter (fun d => ! conn.contains d.daemon_id)).length) := by
  induction ds generalizing n with
  | nil => simp [pick_unconnected]
  | cons d rest ih =>
      unfold pick_unconnected
      cases hc : conn.contains d.daemon_id
      · simp only [Bool.false_eq_true, if_false]
        by_cases h0 : n - 1 = 0
        · have hn1 : n = 1 := by omega
          subst hn1
          rw [if_pos h0]
          simp only [List.filter_cons, hc, Bool.not_false, if_true, List.length_cons,
            List.take_succ_cons, List.take_zero, List.map_cons, List.map_nil,
            Prod.mk.injEq]
          exact ⟨trivial, by omega⟩
        · rw [if_neg h0, ih (n - 1) (by omega)]
          simp only [List.filter_cons, hc, Bool.not_false, if_true]
          rw [List.take_cons (by omega)]
          simp only [List.map_cons, List.length_cons, Prod.mk.injEq]
          exact ⟨trivial, by omega⟩
      · simp only [if_true, List.filter_cons, hc, Bool.not_true, Bool.false_eq_true,
          if_false]
        exact ih n hn

theorem pick_any_spec (ds : List DaemonDescription) (n : Nat) (hn : 1 ≤ n) :
    pick_any ds n = (ds.take n).map victim := by
  induction ds generalizing n with
  | nil => simp [pick_any]
  | cons d rest ih =>
      unfold pick_any
      by_cases h0 : n - 1 = 0
      · have hn1 : n = 1 := by omega
        subst hn1
        simp [h0]
      · rw [if_neg h0, ih (n - 1) (by omega), List.take_cons (by omega)]
        simp only [List.map_cons]

/-- C4 amended: when `apply_mgr` scales down, the removal list is the
managers absent from the manager map, in observed order, up to the
deficit; any remaining deficit is filled by the fallback pass from the
start of the observed daemon list, skipping neither connected and active
managers nor already-queued victims — so the active manager may be
selected and a daemon may appear twice. -/
theorem claim_C4_amended_victim_selection (daemons : List DaemonDescription)
    (m : MgrMap) (count : Nat) (h : count < daemons.length) :
    apply_mgr_victims daemons m count =
      ((daemons.filter (fun d => ! (mgr_connected m).contains d.daemon_id)).take
          (daemons.length - count)).map victim
      ++ (daemons.take ((daemons.length - count) -
            (daemons.filter
              (fun d => ! (mgr_connected m).contains d.daemon_id)).length)).map victim := by
  simp only [apply_mgr_victims]
  rw [pick_unconnected_spec (mgr_connected m) daemons (daemons.length - count) (by omega)]
  by_cases hr : (daemons.length - count) -
      (daemons.filter (fun d => ! (mgr_connected m).contains d.daemon_id)).length > 0
  · simp only [hr, if_true]
    rw [pick_any_spec daemons _ (by omega)]
  · simp only [hr, if_false]
    have h0 : (daemons.length - count) -
        (daemons.filter (fun d => ! (mgr_connected m).contains d.daemon_id)).length = 0 := by
      omega
    rw [h0]
    simp

/-- Witness for the amended C4 at the duplicate-producing scenario. -/
theorem claim_C4_amended_victim_selection_witness :
    apply_mgr_victims [mgrD "h4", mgrD "h1", mgrD "h2", mgrD "h3"] wMgrMap 2 =
      (([mgrD "h4", mgrD "h1", mgrD "h2", mgrD "h3"].filter
          (fun d => ! (mgr_connected wMgrMap).contains d.daemon_id)).take
          ([mgrD "h4", mgrD "h1", mgrD "h2", mgrD "h3"].length - 2)).map victim
      ++ ([mgrD "h4", mgrD "h1", mgrD "h2", mgrD "h3"].take
            (([mgrD "h4", mgrD "h1", mgrD "h2", mgrD "h3"].length - 2) -
              ([mgrD "h4", mgrD "h1", mgrD "h2", mgrD "h3"].filter
                (fun d => ! (mgr_connected wMgrMap).contains d.daemon_id)).length)).map victim :=
  claim_C4_amended_victim_selection [mgrD "h4", mgrD "h1", mgrD "h2", mgrD "h3"]
    wMgrMap 2 (by decide)

/-! ### Monitor downscale -/

/-- Counterexample to C6: a count-only monitor spec (no explicit hosts, no
label) whose requested count 2 is below the 3 monitors of the map makes
`apply_mon` fail up front with the placement validation error of line
1900, not the unsupported-operation error the claim requires for every
such spec. -/
theorem claim_C6_counterexample :
    apply_mon wState 3 id
      { name := "mon", placement := { hosts := [], label := none, count := some 2 },
        count := 2 } []
      = .error (.validation "Mons need a host spec. (host, network, name(opt))") := by
  rfl

/-- C6 amended: for a monitor service spec that passes `apply_mon`'s
initial placement validation (an explicit host list, no label), a
requested count below the current monitor-map size makes `apply_mon` fail
with the unsupported-operation error — an error result deploys and
removes no daemon — and a count equal to the current size returns the
no-op result stating the requested number of monitors exist; a spec with
neither hosts nor label (any count-only spec) instead fails with the
placement validation error. -/
theorem claim_C6_mon_downscale (s : ModState) (numMons : Nat)
    (shuffle : List HostPlacementSpec → List HostPlacementSpec)
    (spec : ServiceSpec) (daemons : List DaemonDescription)
    (hhosts : spec.placement.hosts ≠ [])
    (hlabel : spec.placement.label = none) :
    (spec.count < numMons → apply_mon s numMons shuffle spec daemons
        = .error (.notImplemented "Removing monitors is not supported."))
    ∧ (spec.count = numMons → apply_mon s numMons shuffle spec daemons
        = .ok (.noop "The requested number of monitors exist.")) := by
  have hne : spec.placement.hosts.isEmpty = false := by
    cases hp : spec.placement.hosts
    · exact absurd hp hhosts
    · rfl
  have hload : node_assignment_load (cache_hosts s) shuffle spec = .ok spec := by
    unfold node_assignment_load
    simp only [hlabel, Option.isSome_none, Bool.false_eq_true, if_false, Option.isNone_none,
      hne, Bool.true_and, Bool.false_and, Bool.and_false]
  have happ : apply_mon s numMons shuffle spec daemons = update_mons s numMons spec daemons := by
    unfold apply_mon
    rw [hload]
    simp [hne]
  constructor
  · intro hlt
    rw [happ]
    unfold update_mons
    rw [if_neg (by omega), if_pos hlt]
  · intro heq
    rw [happ]
    unfold update_mons
    rw [if_pos heq]

/-- Witness for C6: the sample mon spec against monitor maps of sizes 3
and 2. -/
theorem claim_C6_mon_downscale_witness :
    apply_mon wState 3 id wMonSpec []
        = .error (.notImplemented "Removing monitors is not supported.")
    ∧ apply_mon wState 2 id wMonSpec []
        = .ok (.noop "The requested number of monitors exist.") :=
  ⟨(claim_C6_mon_downscale wState 3 id wMonSpec [] (by decide) rfl).1 (by decide),
   (claim_C6_mon_downscale wState 2 id wMonSpec [] (by decide) rfl).2 rfl⟩

/-! ### Synthetic daemon entries -/

theorem get_daemons_plan_items_cached (fsid : String) (timeout now : Nat)
    (l : List (String × OutdatableData)) :
    get_daemons_plan_items fsid timeout now false false l =
      ⟨l.map (fun p => (p.1,
          if p.2.last_refresh.isNone then [synthetic_entry fsid] else p.2.data)), []⟩ := by
  induction l with
  | nil => rfl
  | cons p rest ih =>
      obtain ⟨h, info⟩ := p
      unfold get_daemons_plan_items
      rw [ih]
      simp only [Bool.false_eq_true, if_false, Bool.false_and, List.map_cons]
      cases hlr : info.last_refresh.isNone <;> simp [hlr]

theorem dget_plan_map (fsid : String) (l : List (String × OutdatableData)) (k : String) :
    dget (l.map (fun p => (p.1,
        if p.2.last_refresh.isNone then [synthetic_entry fsid] else p.2.data))) k
      = (dget l k).map (fun info =>
          if info.last_refresh.isNone then [synthetic_entry fsid] else info.data) := by
  induction l with
  | nil => rfl
  | cons p rest ih =>
      simp only [List.map_cons, dget, List.find?]
      cases hb : (p.1 == k)
      · simp only [dget] at ih
        exact ih
      · rfl

theorem build_daemon_desc_synthetic (fsid host : String) :
    build_daemon_desc fsid none none none host (synthetic_entry fsid)
      = .ok (some (star_desc host)) := by
  have c2 : (fsid != fsid) = false := bne_self_eq_false fsid
  unfold build_daemon_desc synthetic_entry
  simp only [c2, Bool.false_eq_true, if_false]
  rfl

theorem build_synthetic (fsid host : String) :
    build_host_daemons fsid none none none host [synthetic_entry fsid]
      = .ok [star_desc host] := by
  unfold build_host_daemons
  rw [build_daemon_desc_synthetic]
  rfl

theorem build_all_daemons_mem (fsid : String) (dtype did svc : Option String)
    (dmap : List (String × List DaemonJson)) (H : String) (ls : List DaemonJson)
    (lsd : List DaemonDescription) (sd : DaemonDescription)
    (hget : dget dmap H = some ls)
    (hhost : build_host_daemons fsid dtype did svc H ls = .ok lsd)
    (hmem : sd ∈ lsd) :
    ∀ res, build_all_daemons fsid dtype did svc dmap = .ok res → sd ∈ res := by
  induction dmap with
  | nil => simp [dget] at hget
  | cons p rest ih =>
      obtain ⟨h, ls0⟩ := p
      intro res hall
      unfold build_all_daemons at hall
      cases hb : (h == H)
      · have hget' : dget rest H = some ls := by
          simp only [dget, List.find?, hb] at hget
          exact hget
        cases hper : build_host_daemons fsid dtype did svc h ls0 with
        | error e =>
            rw [hper] at hall
            exact absurd hall (by simp)
        | ok per =>
            rw [hper] at hall
            cases hmore : build_all_daemons fsid dtype did svc rest with
            | error e =>
                rw [hmore] at hall
                exact absurd hall (by simp)
            | ok more =>
                rw [hmore] at hall
                have hres : per ++ more = res := by
                  simpa using hall
                rw [← hres]
                exact List.mem_append_right per (ih hget' more hmore)
      · have he : h = H := beq_iff_eq.mp hb
        subst he
        have hls : ls0 = ls := by
          simp only [dget, List.find?, BEq.refl] at hget
          simpa using hget
        subst hls
        rw [hhost] at hall
        cases hmore : build_all_daemons fsid dtype did svc rest with
        | error e =>
            rw [hmore] at hall
            exact absurd hall (by simp)
        | ok more =>
            rw [hmore] at hall
            have hres : lsd ++ more = res := by
              simpa using hall
            rw [← hres]
            exact List.mem_append_left more hmem

/-- C7: for a host whose daemon-cache entry has no recorded
`last_refresh`, a `_get_daemons` call with `refresh = false` and
`maybe_refresh = false` plans no remote call at all, serves for that host
exactly the one synthetic entry named `*.*` with style `cephadm:v1` and
the cluster fsid, and that entry passes the style/fsid filters and appears
in the built result with daemon type `*` and daemon id `*`. -/
theorem claim_C7_synthetic_daemon_entry (s : ModState) (H : String)
    (info : OutdatableData) (timeout now : Nat)
    (hget : dget s.daemon_cache H = some info)
    (hnr : info.last_refresh = none) :
    (get_daemons_plan s none false false timeout now).waitHosts = []
    ∧ dget (get_daemons_plan s none false false timeout now).daemonsMap H
        = some [synthetic_entry s.fsid]
    ∧ build_host_daemons s.fsid none none none H [synthetic_entry s.fsid]
        = .ok [star_desc H]
    ∧ (∀ res, get_daemons_cached s none none none none timeout now = .ok res →
         star_desc H ∈ res) := by
  have hplan : get_daemons_plan s none false false timeout now =
      ⟨s.daemon_cache.map (fun p => (p.1,
          if p.2.last_refresh.isNone then [synthetic_entry s.fsid] else p.2.data)), []⟩ := by
    unfold get_daemons_plan items_filtered
    exact get_daemons_plan_items_cached s.fsid timeout now s.daemon_cache
  have hmap : dget (get_daemons_plan s none false false timeout now).daemonsMap H
      = some [synthetic_entry s.fsid] := by
    rw [hplan]
    show dget (s.daemon_cache.map _) H = _
    rw [dget_plan_map, hget]
    simp [hnr]
  refine ⟨by rw [hplan], hmap, build_synthetic s.fsid H, ?_⟩
  intro res hres
  unfold get_daemons_cached at hres
  exact build_all_daemons_mem s.fsid none none none _ H [synthetic_entry s.fsid]
    [star_desc H] (star_desc H) hmap (build_synthetic s.fsid H)
    (List.mem_singleton.mpr rfl) res hres

/-- Witness for C7: the sample state's host has a never-refreshed cache
entry. -/
theorem claim_C7_synthetic_daemon_entry_witness :
    (get_daemons_plan wState none false false 60 1000).waitHosts = []
    ∧ dget (get_daemons_plan wState none false false 60 1000).daemonsMap "h1"
        = some [synthetic_entry wState.fsid]
    ∧ build_host_daemons wState.fsid none none none "h1" [synthetic_entry wState.fsid]
        = .ok [star_desc "h1"]
    ∧ (∀ res, get_daemons_cached wState none none none none 60 1000 = .ok res →
         star_desc "h1" ∈ res) :=
  claim_C7_synthetic_daemon_entry wState "h1" OutdatableData.fresh 60 1000 (by decide) rfl

/-! ### Upgrade pull failure -/

theorem mem_add_health (hs : List String) (a : String) : a ∈ add_health hs a := by
  unfold add_health
  split
  · next h => simpa using h
  · exact List.mem_append_right hs (List.mem_singleton.mpr rfl)

/-- C5: when the pass reaches a manager daemon whose host rejects the pull
of the target image, `_do_upgrade` records the `UPGRADE_FAILED_PULL` error
on the upgrade state, sets `paused`, persists the state, raises the
health check, and returns without redeploying any daemon in the pass; a
subsequent `upgrade_resume` removes the paused flag. -/
theorem claim_C5_upgrade_pull_failure (env : UpgEnv) (w : UpgWorld)
    (st : UpgradeState) (d : DaemonDescription) (tid iid : String)
    (hst : w.upgrade_state = some st)
    (htid : st.target_id = some tid)
    (hmgr : d.daemon_type = "mgr")
    (hiid : d.container_image_id = some iid)
    (hne : iid ≠ tid)
    (hself : d.daemon_id ≠ env.activeMgrId)
    (hpn : env.inspectCode d.nodename ≠ 0 ∨ env.inspectImageId d.nodename ≠ some tid)
    (hpf : env.pullCode d.nodename ≠ 0) :
    (do_upgrade env [d] w).upgrade_state
        = some { st with
            error := some "UPGRADE_FAILED_PULL: Upgrade: failed to pull target image",
            paused := true }
    ∧ (do_upgrade env [d] w).saved
        = w.saved ++ [some { st with
            error := some "UPGRADE_FAILED_PULL: Upgrade: failed to pull target image",
            paused := true }]
    ∧ "UPGRADE_FAILED_PULL" ∈ (do_upgrade env [d] w).health
    ∧ (do_upgrade env [d] w).redeploys = w.redeploys
    ∧ upgrade_resume (do_upgrade env [d] w).upgrade_state
        = .ok ⟨"Resumed upgrade to " ++ st.target_name,
               some { st with
                 error := some "UPGRADE_FAILED_PULL: Upgrade: failed to pull target image",
                 paused := false }, true⟩ := by
  have h1 : (d.daemon_type != "mgr") = false := by simp [hmgr]
  have h2 : (iid == tid) = false := beq_eq_false_iff_ne.mpr hne
  have h3 : (("mgr" : String) == "mgr" && d.daemon_id == env.activeMgrId) = false := by
    simp [hself]
  have h4 : (env.inspectCode d.nodename != 0
      || env.inspectImageId d.nodename != some tid) = true := by
    cases hpn with
    | inl h => simp [bne_iff_ne, h]
    | inr h => simp [bne_iff_ne, h]
  have h5 : (env.pullCode d.nodename != 0) = true := by
    simp [bne_iff_ne, hpf]
  have hloop : upgrade_type_daemons env st.target_name tid "mgr" st w false [d]
      = .ret (fail_upgrade w st "UPGRADE_FAILED_PULL"
          "Upgrade: failed to pull target image") := by
    unfold upgrade_type_daemons
    rw [hiid]
    simp only [h1, Bool.false_eq_true, if_false, h2, h3, h4, h5, if_true]
  have hone : upgrade_one_type env st.target_name tid "mgr" st [d] w
      = .ret (fail_upgrade w st "UPGRADE_FAILED_PULL"
          "Upgrade: failed to pull target image") := by
    unfold upgrade_one_type
    rw [hloop]
  have htypes : upgrade_types env st.target_name tid st [d] w
      ["mgr", "mon", "osd", "rgw", "mds"]
      = (fail_upgrade w st "UPGRADE_FAILED_PULL"
          "Upgrade: failed to pull target image", false) := by
    unfold upgrade_types
    rw [hone]
  have hdo : do_upgrade env [d] w
      = fail_upgrade w st "UPGRADE_FAILED_PULL"
          "Upgrade: failed to pull target image" := by
    unfold do_upgrade
    rw [hst]
    show (match st.target_id with
      | none =>
          match env.pullTarget with
          | .error _ =>
              fail_upgrade w st "UPGRADE_FAILED_PULL"
                "Upgrade: failed to pull target image"
          | .ok (tid, tver) =>
              do_upgrade_main env [d]
                { w with
                  upgrade_state :=
                    some { st with target_id := some tid, target_version := some tver }
                  saved := w.saved
                    ++ [some { st with target_id := some tid,
                                       target_version := some tver }] }
                { st with target_id := some tid, target_version := some tver } tid
      | some tid => do_upgrade_main env [d] w st tid) = _
    rw [htid]
    show do_upgrade_main env [d] w st tid = _
    unfold do_upgrade_main
    rw [htypes]
  rw [hdo]
  unfold fail_upgrade
  refine ⟨rfl, rfl, mem_add_health w.health "UPGRADE_FAILED_PULL", rfl, rfl⟩

/-- Witness for C5: a single manager at image `A`, target id `B`, with
every pull failing. -/
theorem claim_C5_upgrade_pull_failure_witness :
    (do_upgrade wUpgEnv [wUpgD] wUpgW).upgrade_state
        = some { wUpgSt with
            error := some "UPGRADE_FAILED_PULL: Upgrade: failed to pull target image",
            paused := true }
    ∧ (do_upgrade wUpgEnv [wUpgD] wUpgW).saved
        = wUpgW.saved ++ [some { wUpgSt with
            error := some "UPGRADE_FAILED_PULL: Upgrade: failed to pull target image",
            paused := true }]
    ∧ "UPGRADE_FAILED_PULL" ∈ (do_upgrade wUpgEnv [wUpgD] wUpgW).health
    ∧ (do_upgrade wUpgEnv [wUpgD] wUpgW).redeploys = wUpgW.redeploys
    ∧ upgrade_resume (do_upgrade wUpgEnv [wUpgD] wUpgW).upgrade_state
        = .ok ⟨"Resumed upgrade to " ++ wUpgSt.target_name,
               some { wUpgSt with
                 error := some "UPGRADE_FAILED_PULL: Upgrade: failed to pull target image",
                 paused := false }, true⟩ :=
  claim_C5_upgrade_pull_failure wUpgEnv wUpgW wUpgSt wUpgD "B" "A"
    rfl rfl rfl rfl (by decide) (by decide) (.inr (by decide)) (by decide)

end Cephadm
